import Mathlib

/-!
Verification of `st_visium_datasets/feature_barcode.py`.

The module has two independent pipelines:

* `load_feature_barcode_matrix_df`: checks its argument is a directory,
  locates and reads three files (a coordinate-format sparse matrix, a
  tab-separated feature-metadata file, a tab-separated barcode file) and
  assembles a feature-by-barcode table whose rows are keyed by the
  composite `(feature_id, gene, feature_type)` and whose columns are keyed
  by barcode.
* `load_prove_set_df`: reads a comment-tolerant CSV, renames the
  `gene_id` column to `feature_id` and keeps exactly the rows whose
  `included` value is true, dropping the `included` column.

Files are represented by their list of (decompressed) text lines.  The
file-lookup collaborator `get_nested_filepath` lives in a module that is
not part of this source tree; it is abstracted below (see `VDir`).
-/

/-- Split a character list at every occurrence of the separator; the
splitting of the empty list is one empty field. -/
def splitFieldsChars (sep : Char) : List Char → List (List Char)
  | [] => [[]]
  | c :: cs =>
    if c = sep then [] :: splitFieldsChars sep cs
    else
      match splitFieldsChars sep cs with
      | [] => [[c]]
      | f :: fs => (c :: f) :: fs

/-- Split a string at every occurrence of the separator character. -/
def splitSep (sep : Char) (s : String) : List String :=
  (splitFieldsChars sep s.data).map String.mk

/-- One data row produced by Python's `csv.reader` with `delimiter="\t"`
on a line containing no quote character: a blank line yields no fields,
any other line is split at every tab. -/
def csvReadTab (line : String) : List String :=
  if line = "" then [] else splitSep '\t' line

/-- Python's `sum(reader, [])`: a left fold of list concatenation over the
rows, starting from the empty list. -/
def pySum (xss : List (List String)) : List String :=
  xss.foldl (fun acc xs => acc ++ xs) []

/-- `_load_barcodes`: read `barcodes.tsv.gz` with `csv.reader` and return
`sum(reader, [])`, the concatenation of all fields of all lines. -/
def load_barcodes (lines : List String) : List String :=
  pySum (lines.map csvReadTab)

/-- The number of tuples produced by Python's `zip(*rows)`: the minimum
row length, and `0` when there are no rows at all. -/
def zipStarLen (rows : List (List String)) : Nat :=
  match rows with
  | [] => 0
  | r :: rs => rs.foldl (fun m s => min m s.length) r.length

/-- Python's `zip(*rows)`: the list of columns of `rows`, truncated to the
length of the shortest row. -/
def zipStar (rows : List (List String)) : List (List String) :=
  (List.range (zipStarLen rows)).map (fun j => rows.map (fun r => r.getD j ""))

/-- `_load_features`: read `features.tsv.gz` with `csv.reader`, collect the
rows, and evaluate `feature_ids, gene_names, feature_types = zip(*rows)`.
The triple unpacking succeeds exactly when `zip(*rows)` yields three
columns; otherwise Python raises `ValueError`, modelled by `none`. -/
def load_features (lines : List String) :
    Option (List String × List String × List String) :=
  match zipStar (lines.map csvReadTab) with
  | [ids, genes, types] => some (ids, genes, types)
  | _ => none

/-- The sparse coordinate matrix returned by `scipy.io.mmread`: declared
dimensions plus a list of `(row, col, value)` entries (0-indexed here). -/
structure CooMatrix where
  rows : Nat
  cols : Nat
  entries : List (Nat × Nat × Int)
deriving DecidableEq

/-- Dense value of a coordinate matrix at `(i, j)`: the sum of all stored
entries at that coordinate (scipy sums duplicate coordinates when
densifying). -/
def CooMatrix.dense (m : CooMatrix) (i j : Nat) : Int :=
  (m.entries.filter (fun e => e.1 == i && e.2.1 == j)).foldl
    (fun a e => a + e.2.2) 0

/-- The assembled feature-barcode table: ordered composite row keys
`(feature_id, gene, feature_type)`, ordered barcode column keys, and the
dense grid of values. -/
structure FbTable where
  rowKeys : List (String × String × String)
  colKeys : List String
  values : List (List Int)
deriving DecidableEq

/-- Cell of the assembled table at row position `r`, column position `c`. -/
def FbTable.cell (t : FbTable) (r c : Nat) : Int :=
  (t.values.getD r []).getD c 0

/-- The errors `load_feature_barcode_matrix_df` can propagate. -/
inductive LoadError where
  /-- `ValueError` raised locally when the argument is not a directory. -/
  | valueErrorNotADir : LoadError
  /-- A lookup failure of the external `get_nested_filepath` collaborator
  for the named file (missing or ambiguous). -/
  | fileLookup : String → LoadError
  /-- The `ValueError` from the triple unpacking in `_load_features`. -/
  | unpack : LoadError
  /-- The pandas `ValueError` raised when the barcode list length differs
  from the matrix column count or the feature lists' length differs from
  the matrix row count (`df.columns = ...` / `df.insert`). -/
  | lengthMismatch : LoadError
deriving DecidableEq

/-- The directory argument of `load_feature_barcode_matrix_df`.

Modelled from the spec: the collaborator
`get_nested_filepath(root, name)` ("find file by name under a directory")
is imported from a module outside this source tree; per the spec it
returns the unique file with that name under the root and fails when zero
or multiple candidates exist.  Each of the three named files is therefore
abstracted to the `Option` of its content after lookup, decompression and
(for the matrix, whose parser `scipy.io.mmread` is external) parsing:
`none` means the lookup fails for that name.  `otherFiles` stands for the
rest of the directory tree, which the loader never consults. -/
structure VDir where
  is_dir : Bool
  matFile : Option CooMatrix
  featuresFile : Option (List String)
  barcodesFile : Option (List String)
  otherFiles : List (String × List String)

/-- `load_feature_barcode_matrix_df`, together with the trace of file
names it looks up, in order.  Mirrors the source: raise `ValueError` if
the argument is not a directory; read the matrix, the features and the
barcodes; build the dataframe of the matrix, set its columns to the
barcode list, insert the three feature columns and set them as the index.
The pandas assignments raise when the barcode count differs from the
matrix column count or the feature count differs from the matrix row
count. -/
def load_feature_barcode_matrix_df (d : VDir) :
    Except LoadError FbTable × List String :=
  if d.is_dir = false then
    (Except.error LoadError.valueErrorNotADir, [])
  else
    match d.matFile with
    | none => (Except.error (LoadError.fileLookup "matrix.mtx.gz"), ["matrix.mtx.gz"])
    | some m =>
      match d.featuresFile with
      | none =>
        (Except.error (LoadError.fileLookup "features.tsv.gz"),
          ["matrix.mtx.gz", "features.tsv.gz"])
      | some fl =>
        match load_features fl with
        | none =>
          (Except.error LoadError.unpack, ["matrix.mtx.gz", "features.tsv.gz"])
        | some (ids, genes, types) =>
          match d.barcodesFile with
          | none =>
            (Except.error (LoadError.fileLookup "barcodes.tsv.gz"),
              ["matrix.mtx.gz", "features.tsv.gz", "barcodes.tsv.gz"])
          | some bl =>
            let barcodes := load_barcodes bl
            if (load_barcodes bl).length = m.cols ∧ ids.length = m.rows then
              (Except.ok
                { rowKeys := (List.range m.rows).map
                    (fun i => (ids.getD i "", genes.getD i "", types.getD i "")),
                  colKeys := barcodes,
                  values := (List.range m.rows).map
                    (fun i => (List.range m.cols).map (fun j => m.dense i j)) },
                ["matrix.mtx.gz", "features.tsv.gz", "barcodes.tsv.gz"])
            else
              (Except.error LoadError.lengthMismatch,
                ["matrix.mtx.gz", "features.tsv.gz", "barcodes.tsv.gz"])

/-- Truncation of a line at its first `#` character, on the character
list. -/
def stripCommentChars : List Char → List Char
  | [] => []
  | c :: cs => if c = '#' then [] else c :: stripCommentChars cs

/-- What pandas keeps of a line under `comment="#"`: everything before the
first `#` (a line beginning with `#` becomes empty). -/
def stripComment (line : String) : String :=
  String.mk (stripCommentChars line.data)

/-- The lines `pd.read_csv(path, comment="#")` actually parses: each line
is truncated at its first `#`, and lines that are (or become) empty are
skipped (`skip_blank_lines=True` is the pandas default). -/
def csvLines (content : List String) : List String :=
  (content.map stripComment).filter (fun l => l != "")

/-- A pandas dataframe as read from a headed CSV: the column names and the
data rows (cells kept as strings). -/
structure PandasDF where
  header : List String
  rows : List (List String)
deriving DecidableEq

/-- `pd.read_csv(path, comment="#")` on a CSV whose cells contain no quote
character: the first surviving line is the header, the remaining ones are
the data rows, each split at the commas.  `none` models the
`EmptyDataError` raised when no line survives. -/
def pdReadCsv (content : List String) : Option PandasDF :=
  match csvLines content with
  | [] => none
  | h :: rs => some ⟨splitSep ',' h, rs.map (fun r => splitSep ',' r)⟩

/-- The column renaming `df.rename(columns=...)` applies per name:
`gene_id` becomes `feature_id`, every other name is untouched. -/
def renameGeneId (c : String) : String :=
  if c = "gene_id" then "feature_id" else c

/-- Whether a CSV cell of the `included` column evaluates to true: pandas
parses the tokens `True`/`TRUE`/`true` as the boolean true. -/
def pyBool (s : String) : Bool :=
  s == "True" || s == "TRUE" || s == "true"

/-- `df[df[col]]` where `col` is the boolean column at position `k`: keep
exactly the rows whose `k`-th cell evaluates to true, in order. -/
def pdFilterByCol (df : PandasDF) (k : Nat) : PandasDF :=
  ⟨df.header, df.rows.filter (fun r => pyBool (r.getD k ""))⟩

/-- `df.drop(columns=[...])` for the column at position `k`: remove the
`k`-th entry of the header and of every row. -/
def pdDropCol (df : PandasDF) (k : Nat) : PandasDF :=
  ⟨df.header.eraseIdx k, df.rows.map (fun r => r.eraseIdx k)⟩

/-- `load_prove_set_df`: parse the CSV with `comment="#"`, rename
`gene_id` to `feature_id`, keep the rows whose `included` value is true
and drop the `included` column.  `none` models the propagated pandas
errors (empty input, or no `included` column). -/
def load_prove_set_df (content : List String) : Option PandasDF :=
  match pdReadCsv content with
  | none => none
  | some df0 =>
    let df1 : PandasDF := ⟨df0.header.map renameGeneId, df0.rows⟩
    match df1.header.findIdx? (fun c => c == "included") with
    | none => none
    | some k => some (pdDropCol (pdFilterByCol df1 k) k)

/-- The probe-set table as the spec describes it, on the parsed header and
rows: retain exactly the rows whose `included` cell (position `k`)
evaluates to true, drop the `included` column, rename `gene_id` to
`feature_id`, and pass every other column through unchanged and in its
original order. -/
def probeSetSpecTable (header : List String) (rows : List (List String))
    (k : Nat) : PandasDF :=
  ⟨(header.eraseIdx k).map renameGeneId,
    (rows.filter (fun r => pyBool (r.getD k ""))).map (fun r => r.eraseIdx k)⟩


/-! ### Basic lemmas about the embedded operations -/

lemma foldl_append_eq_join {α : Type} (xss : List (List α)) (acc : List α) :
    xss.foldl (fun a x => a ++ x) acc = acc ++ xss.flatten := by
  induction xss generalizing acc with
  | nil => simp
  | cons x xs ih => simp [ih, List.append_assoc]

lemma load_barcodes_eq_join (lines : List String) :
    load_barcodes lines = (lines.map csvReadTab).flatten := by
  simp [load_barcodes, pySum, foldl_append_eq_join]

lemma zipStar_length (rows : List (List String)) :
    (zipStar rows).length = zipStarLen rows := by
  simp [zipStar]

lemma foldl_min_le_init (rs : List (List String)) (a : Nat) :
    rs.foldl (fun m s => min m s.length) a ≤ a := by
  induction rs generalizing a with
  | nil => simp
  | cons r rs ih => exact le_trans (ih _) (min_le_left _ _)

lemma foldl_min_le_mem (rs : List (List String)) (a : Nat) (r : List String)
    (hr : r ∈ rs) : rs.foldl (fun m s => min m s.length) a ≤ r.length := by
  induction rs generalizing a with
  | nil => cases hr
  | cons x xs ih =>
    rcases List.mem_cons.mp hr with h | h
    · subst h
      exact le_trans (foldl_min_le_init xs _) (min_le_right _ _)
    · exact ih _ h

lemma zipStarLen_le_of_mem (rows : List (List String)) (r : List String)
    (hr : r ∈ rows) : zipStarLen rows ≤ r.length := by
  cases rows with
  | nil => cases hr
  | cons x xs =>
    rcases List.mem_cons.mp hr with h | h
    · subst h
      exact foldl_min_le_init xs _
    · exact foldl_min_le_mem xs _ r h

lemma load_features_some_eq (lines ids genes types : List String)
    (h : load_features lines = some (ids, genes, types)) :
    ids = (lines.map csvReadTab).map (fun r => r.getD 0 "") ∧
    genes = (lines.map csvReadTab).map (fun r => r.getD 1 "") ∧
    types = (lines.map csvReadTab).map (fun r => r.getD 2 "") := by
  unfold load_features at h
  split at h
  case _ ids' genes' types' heq =>
    have hp : ids' = ids ∧ genes' = genes ∧ types' = types := by
      simpa using h
    have hlen : zipStarLen (lines.map csvReadTab) = 3 := by
      have hlen0 := congrArg List.length heq
      rw [zipStar_length] at hlen0
      simpa using hlen0
    rw [zipStar, hlen] at heq
    have hr : List.range 3 = [0, 1, 2] := by decide
    rw [hr] at heq
    simp only [List.map_cons, List.map_nil, List.cons.injEq, and_true] at heq
    obtain ⟨e1, e2, e3⟩ := heq
    exact ⟨hp.1 ▸ e1.symm, hp.2.1 ▸ e2.symm, hp.2.2 ▸ e3.symm⟩
  case _ => exact absurd h (by simp)

/-! ### C3: barcode flattening -/

/-- C3: the barcode reader returns the row-major flattening of every
tab-separated field of every line; in particular the file with lines
`X1<TAB>X2` and `Y1` yields `[X1, X2, Y1]`, so a multi-field line is never
one single barcode. -/
theorem barcodes_flatten_row_major :
    (∀ lines : List String,
      load_barcodes lines = (lines.map csvReadTab).flatten) ∧
    load_barcodes ["X1\tX2", "Y1"] = ["X1", "X2", "Y1"] :=
  ⟨load_barcodes_eq_join, by decide⟩

/-! ### C2: non-directory input -/

/-- C2: on any path that is not a directory, `load_feature_barcode_matrix_df`
raises the invalid-input `ValueError`, with an empty file-access trace: no
file lookup or read is attempted. -/
theorem not_dir_raises_before_lookup (d : VDir) (h : d.is_dir = false) :
    load_feature_barcode_matrix_df d =
      (Except.error LoadError.valueErrorNotADir, []) := by
  simp [load_feature_barcode_matrix_df, h]

/-- Witness for C2: a regular-file path whose directory tree would even
contain all three readable files still gets the invalid-input error and no
file access. -/
theorem not_dir_raises_before_lookup_witness :
    load_feature_barcode_matrix_df
        { is_dir := false,
          matFile := some { rows := 1, cols := 1, entries := [(0, 0, 5)] },
          featuresFile := some ["G1\tA\tGene Expression"],
          barcodesFile := some ["AAA-1"],
          otherFiles := [] } =
      (Except.error LoadError.valueErrorNotADir, []) :=
  not_dir_raises_before_lookup _ rfl

/-! ### C9: determinism -/

/-- C9: `load_feature_barcode_matrix_df` is a function of the directory
flag and the three file contents alone: two directories with unchanged
relevant contents (whatever else the tree holds) give identical results,
so two calls on unchanged files return identical tables. -/
theorem load_matrix_deterministic (d₁ d₂ : VDir)
    (h1 : d₁.is_dir = d₂.is_dir) (h2 : d₁.matFile = d₂.matFile)
    (h3 : d₁.featuresFile = d₂.featuresFile)
    (h4 : d₁.barcodesFile = d₂.barcodesFile) :
    load_feature_barcode_matrix_df d₁ = load_feature_barcode_matrix_df d₂ := by
  unfold load_feature_barcode_matrix_df
  rw [h1, h2, h3, h4]

/-- Witness for C9: same file contents, different unrelated tree entries,
identical output. -/
theorem load_matrix_deterministic_witness :
    load_feature_barcode_matrix_df
        { is_dir := true,
          matFile := some { rows := 1, cols := 1, entries := [(0, 0, 5)] },
          featuresFile := some ["G1\tA\tGene Expression"],
          barcodesFile := some ["AAA-1"],
          otherFiles := [] } =
      load_feature_barcode_matrix_df
        { is_dir := true,
          matFile := some { rows := 1, cols := 1, entries := [(0, 0, 5)] },
          featuresFile := some ["G1\tA\tGene Expression"],
          barcodesFile := some ["AAA-1"],
          otherFiles := [("web_summary.html", ["junk"])] } :=
  load_matrix_deterministic _ _ rfl rfl rfl rfl

/-! ### C4: feature files with a wrong field count -/

/-- C4 counterexample: a features file whose second line has four fields
(field count different from 3) on which `_load_features` nevertheless
succeeds, silently discarding the surplus field. -/
theorem features_extra_field_no_error :
    load_features ["a\tb\tc", "d\te\tf\tg"] =
      some (["a", "d"], ["b", "e"], ["c", "f"]) ∧
    (csvReadTab "d\te\tf\tg").length ≠ 3 := by decide

/-- C4 (amended): `_load_features` fails with the propagated unpacking
error whenever some line has fewer than three fields. -/
theorem features_short_line_fails (lines : List String) (l : String)
    (hl : l ∈ lines) (hlen : (csvReadTab l).length < 3) :
    load_features lines = none := by
  have hmem : csvReadTab l ∈ lines.map csvReadTab :=
    List.mem_map_of_mem csvReadTab hl
  have hsl : zipStarLen (lines.map csvReadTab) < 3 :=
    lt_of_le_of_lt (zipStarLen_le_of_mem _ _ hmem) hlen
  unfold load_features
  split
  case _ ids genes types heq =>
    exfalso
    have h3 : (zipStar (lines.map csvReadTab)).length = 3 := by rw [heq]; rfl
    rw [zipStar_length] at h3
    omega
  case _ => rfl

/-- Witness for the amended C4: a one-line file with two fields fails. -/
theorem features_short_line_fails_witness :
    load_features ["a\tb"] = none :=
  features_short_line_fails ["a\tb"] "a\tb" (by decide) (by decide)

/-! ### C5: index alignment of the three feature sequences -/

/-- C5 counterexample: `_load_features` succeeds on a file whose second
line has four fields, and then the second elements of the three returned
sequences are not the fields of the second input line (the fourth field is
missing). -/
theorem features_fields_not_exact :
    load_features ["a\tb\tc", "d\te\tf\tg"] =
      some (["a", "d"], ["b", "e"], ["c", "f"]) ∧
    csvReadTab "d\te\tf\tg" ≠ ["d", "e", "f"] := by decide

/-- C5 (amended): whenever `_load_features` succeeds, it returns three
sequences of the same length as the file, index-aligned: the `i`-th
elements of the three sequences are the FIRST three fields of the `i`-th
input line. -/
theorem features_index_aligned (lines ids genes types : List String)
    (h : load_features lines = some (ids, genes, types)) :
    ids.length = lines.length ∧ genes.length = lines.length ∧
    types.length = lines.length ∧
    ∀ i, i < lines.length →
      ids.getD i "" = (csvReadTab (lines.getD i "")).getD 0 "" ∧
      genes.getD i "" = (csvReadTab (lines.getD i "")).getD 1 "" ∧
      types.getD i "" = (csvReadTab (lines.getD i "")).getD 2 "" := by
  obtain ⟨hi, hg, ht⟩ := load_features_some_eq lines ids genes types h
  subst hi; subst hg; subst ht
  refine ⟨by simp, by simp, by simp, ?_⟩
  intro i hilt
  have h0 : lines.getD i "" = lines[i] := List.getD_eq_getElem lines "" hilt
  refine ⟨?_, ?_, ?_⟩ <;>
    rw [List.getD_eq_getElem _ _ (by simpa using hilt), List.getElem_map,
      List.getElem_map, h0]

/-- Witness for the amended C5 at a one-line file. -/
theorem features_index_aligned_witness :
    (["x"] : List String).length = (["x\ty\tz"] : List String).length ∧
    (["y"] : List String).length = (["x\ty\tz"] : List String).length ∧
    (["z"] : List String).length = (["x\ty\tz"] : List String).length ∧
    ∀ i, i < (["x\ty\tz"] : List String).length →
      (["x"] : List String).getD i "" =
        (csvReadTab ((["x\ty\tz"] : List String).getD i "")).getD 0 "" ∧
      (["y"] : List String).getD i "" =
        (csvReadTab ((["x\ty\tz"] : List String).getD i "")).getD 1 "" ∧
      (["z"] : List String).getD i "" =
        (csvReadTab ((["x\ty\tz"] : List String).getD i "")).getD 2 "" :=
  features_index_aligned ["x\ty\tz"] ["x"] ["y"] ["z"] (by decide)

/-! ### The successful run of the assembler -/

lemma getD_range_map {β : Type} (g : Nat → β) (n i : Nat) (hi : i < n)
    (dflt : β) : ((List.range n).map g).getD i dflt = g i := by
  rw [List.getD_eq_getElem _ _ (by simpa using hi), List.getElem_map,
    List.getElem_range]

lemma getD_grid (f : Nat → Nat → Int) (R C r c : Nat) (hr : r < R)
    (hc : c < C) :
    (((List.range R).map
        (fun i => (List.range C).map (fun j => f i j))).getD r []).getD c 0 =
      f r c := by
  rw [getD_range_map _ _ _ hr, getD_range_map _ _ _ hc]

lemma range_map_getD_eq_zip (ids genes types : List String) (n : Nat)
    (h1 : ids.length = n) (h2 : genes.length = n) (h3 : types.length = n) :
    (List.range n).map
        (fun i => (ids.getD i "", genes.getD i "", types.getD i "")) =
      ids.zip (genes.zip types) := by
  apply List.ext_getElem
  · simp [List.length_zip, h1, h2, h3]
  · intro i hi1 hi2
    have hin : i < n := by simpa using hi1
    simp only [List.getElem_map, List.getElem_range, List.getElem_zip]
    rw [List.getD_eq_getElem _ _ (by simpa [h1] using hin),
      List.getD_eq_getElem _ _ (by simpa [h2] using hin),
      List.getD_eq_getElem _ _ (by simpa [h3] using hin)]

/-- The assembler on a fully valid directory: the explicit table and
trace. -/
lemma load_matrix_ok (d : VDir) (m : CooMatrix)
    (fl bl ids genes types : List String)
    (hdir : d.is_dir = true) (hm : d.matFile = some m)
    (hf : d.featuresFile = some fl)
    (hfeat : load_features fl = some (ids, genes, types))
    (hb : d.barcodesFile = some bl)
    (hcols : (load_barcodes bl).length = m.cols)
    (hrows : ids.length = m.rows) :
    load_feature_barcode_matrix_df d =
      (Except.ok
        { rowKeys := (List.range m.rows).map
            (fun i => (ids.getD i "", genes.getD i "", types.getD i "")),
          colKeys := load_barcodes bl,
          values := (List.range m.rows).map
            (fun i => (List.range m.cols).map (fun j => m.dense i j)) },
        ["matrix.mtx.gz", "features.tsv.gz", "barcodes.tsv.gz"]) := by
  unfold load_feature_barcode_matrix_df
  rw [hdir, hm, hf, hb]
  simp [hfeat, hcols, hrows]

/-! ### C1: the assembled table -/

/-- C1: on every valid triad (directory, parsable files, matching
lengths), the assembled table's columns are exactly the barcode list in
file order, its rows are exactly the composite `(feature_id, gene,
feature_type)` tuples in file order, and each cell equals the dense form
of the sparse coordinate matrix there. -/
theorem matrix_df_assembles (d : VDir) (m : CooMatrix)
    (fl bl ids genes types : List String)
    (hdir : d.is_dir = true) (hm : d.matFile = some m)
    (hf : d.featuresFile = some fl)
    (hfeat : load_features fl = some (ids, genes, types))
    (hb : d.barcodesFile = some bl)
    (hcols : (load_barcodes bl).length = m.cols)
    (hrows : ids.length = m.rows) :
    ∃ t : FbTable,
      (load_feature_barcode_matrix_df d).1 = Except.ok t ∧
      t.colKeys = load_barcodes bl ∧
      t.rowKeys = ids.zip (genes.zip types) ∧
      ∀ r c, r < m.rows → c < m.cols → t.cell r c = m.dense r c := by
  obtain ⟨hi, hg, ht⟩ := load_features_some_eq fl ids genes types hfeat
  have hgl : genes.length = m.rows := by
    rw [hg, ← hrows, hi]; simp
  have htl : types.length = m.rows := by
    rw [ht, ← hrows, hi]; simp
  have hld := load_matrix_ok d m fl bl ids genes types hdir hm hf hfeat hb
    hcols hrows
  refine ⟨_, by rw [hld], rfl, ?_, ?_⟩
  · exact range_map_getD_eq_zip ids genes types m.rows hrows hgl htl
  · intro r c hr hc
    exact getD_grid (fun i j => m.dense i j) m.rows m.cols r c hr hc

/-- The spec's 3-features-by-2-barcodes example directory. -/
def exampleDir : VDir where
  is_dir := true
  matFile := some ⟨3, 2, [(0, 0, 1), (1, 1, 2), (2, 0, 3)]⟩
  featuresFile := some ["G1\tA\tGene Expression", "G2\tB\tGene Expression",
    "G3\tC\tGene Expression"]
  barcodesFile := some ["AAA-1", "BBB-1"]
  otherFiles := []

/-- Witness for C1: the spec's 3-features-by-2-barcodes example. -/
theorem matrix_df_assembles_witness :
    ∃ t : FbTable,
      (load_feature_barcode_matrix_df exampleDir).1 = Except.ok t ∧
      t.colKeys = load_barcodes ["AAA-1", "BBB-1"] ∧
      t.rowKeys = (["G1", "G2", "G3"] : List String).zip
        ((["A", "B", "C"] : List String).zip
          ["Gene Expression", "Gene Expression", "Gene Expression"]) ∧
      ∀ r c, r < 3 → c < 2 → t.cell r c =
        CooMatrix.dense ⟨3, 2, [(0, 0, 1), (1, 1, 2), (2, 0, 3)]⟩ r c :=
  matrix_df_assembles exampleDir ⟨3, 2, [(0, 0, 1), (1, 1, 2), (2, 0, 3)]⟩
    ["G1\tA\tGene Expression", "G2\tB\tGene Expression",
      "G3\tC\tGene Expression"]
    ["AAA-1", "BBB-1"] ["G1", "G2", "G3"] ["A", "B", "C"]
    ["Gene Expression", "Gene Expression", "Gene Expression"]
    rfl rfl rfl (by decide) rfl (by decide) (by decide)

/-! ### C8: file order kept, duplicates kept -/

/-- C8: the assembled row order and column order are the file orders —
nothing is sorted or deduplicated.  Even when rows `i` and `j` carry
identical composite keys, both keys appear, each at its original
position, the row count is the full matrix row count, and the column keys
are the barcode list unchanged. -/
theorem duplicate_keys_preserved (d : VDir) (m : CooMatrix)
    (fl bl ids genes types : List String) (i j : Nat)
    (hdir : d.is_dir = true) (hm : d.matFile = some m)
    (hf : d.featuresFile = some fl)
    (hfeat : load_features fl = some (ids, genes, types))
    (hb : d.barcodesFile = some bl)
    (hcols : (load_barcodes bl).length = m.cols)
    (hrows : ids.length = m.rows)
    (hij : i < j) (hjlt : j < m.rows)
    (hdup : (ids.getD i "", genes.getD i "", types.getD i "") =
        (ids.getD j "", genes.getD j "", types.getD j "")) :
    ∃ t : FbTable,
      (load_feature_barcode_matrix_df d).1 = Except.ok t ∧
      t.rowKeys.length = m.rows ∧
      t.rowKeys.getD i ("", "", "") =
        (ids.getD i "", genes.getD i "", types.getD i "") ∧
      t.rowKeys.getD j ("", "", "") =
        (ids.getD j "", genes.getD j "", types.getD j "") ∧
      t.colKeys = load_barcodes bl := by
  have hld := load_matrix_ok d m fl bl ids genes types hdir hm hf hfeat hb
    hcols hrows
  refine ⟨_, by rw [hld], by simp, ?_, ?_, rfl⟩
  · exact getD_range_map _ m.rows i (lt_trans hij hjlt) _
  · exact getD_range_map _ m.rows j hjlt _

/-- The duplicated-feature example directory for C8. -/
def dupDir : VDir where
  is_dir := true
  matFile := some ⟨2, 1, [(0, 0, 7)]⟩
  featuresFile := some ["G1\tA\tGene Expression", "G1\tA\tGene Expression"]
  barcodesFile := some ["AAA-1"]
  otherFiles := []

/-- Witness for C8: two feature lines with the same composite key both
appear, at positions 0 and 1. -/
theorem duplicate_keys_preserved_witness :
    ∃ t : FbTable,
      (load_feature_barcode_matrix_df dupDir).1 = Except.ok t ∧
      t.rowKeys.length = 2 ∧
      t.rowKeys.getD 0 ("", "", "") = ("G1", "A", "Gene Expression") ∧
      t.rowKeys.getD 1 ("", "", "") = ("G1", "A", "Gene Expression") ∧
      t.colKeys = load_barcodes ["AAA-1"] :=
  duplicate_keys_preserved dupDir ⟨2, 1, [(0, 0, 7)]⟩
    ["G1\tA\tGene Expression", "G1\tA\tGene Expression"] ["AAA-1"]
    ["G1", "G1"] ["A", "A"] ["Gene Expression", "Gene Expression"] 0 1
    rfl rfl rfl (by decide) rfl (by decide) (by decide) (by decide) (by decide)
    (by decide)

/-! ### Lemmas about the probe-set pipeline -/

lemma renameGeneId_included (c : String) :
    (renameGeneId c == "included") = (c == "included") := by
  unfold renameGeneId
  split
  case _ h => rw [h]; decide
  case _ => rfl

lemma findIdx?_included_map_rename (l : List String) :
    (l.map renameGeneId).findIdx? (fun c => c == "included") =
      l.findIdx? (fun c => c == "included") := by
  suffices h : ∀ i, List.findIdx? (fun c => c == "included")
      (l.map renameGeneId) i =
      List.findIdx? (fun c => c == "included") l i from h 0
  induction l with
  | nil => intro i; rfl
  | cons x xs ih =>
    intro i
    simp only [List.map_cons, List.findIdx?_cons, renameGeneId_included, ih]

/-- The probe-set loader on parsed content with an `included` column at
position `k`: the explicit result. -/
lemma load_prove_set_eq (content : List String) (h : String)
    (rs : List String) (k : Nat) (hcsv : csvLines content = h :: rs)
    (hk : (splitSep ',' h).findIdx? (fun c => c == "included") = some k) :
    load_prove_set_df content =
      some ⟨((splitSep ',' h).map renameGeneId).eraseIdx k,
        ((rs.map (fun r => splitSep ',' r)).filter
            (fun r => pyBool (r.getD k ""))).map (fun r => r.eraseIdx k)⟩ := by
  unfold load_prove_set_df pdReadCsv
  rw [hcsv]
  simp only [findIdx?_included_map_rename, hk, pdFilterByCol, pdDropCol]

lemma map_eraseIdx_comm {α β : Type} (f : α → β) (l : List α) (k : Nat) :
    (l.map f).eraseIdx k = (l.eraseIdx k).map f := by
  induction l generalizing k with
  | nil => rfl
  | cons x xs ih =>
    cases k with
    | zero => rfl
    | succ k => simp [ih]

/-! ### C6: the probe-set filter -/

/-- C6: on every probe-set CSV whose header contains `gene_id` and
`included` (the latter at position `k`), the loader returns exactly the
spec's table: the rows whose `included` value evaluates to true, the
`included` column dropped, `gene_id` renamed to `feature_id`, and every
other column passed through unchanged and in its original order. -/
theorem probe_set_filters_renames (content : List String) (h : String)
    (rs : List String) (k : Nat)
    (hcsv : csvLines content = h :: rs)
    (hg : "gene_id" ∈ splitSep ',' h)
    (hk : (splitSep ',' h).findIdx? (fun c => c == "included") = some k) :
    load_prove_set_df content =
      some (probeSetSpecTable (splitSep ',' h)
        (rs.map (fun r => splitSep ',' r)) k) := by
  rw [load_prove_set_eq content h rs k hcsv hk]
  unfold probeSetSpecTable
  rw [map_eraseIdx_comm]

/-- Witness for C6: the spec's example CSV, evaluated: one row
`(feature_id = G1, extra = x)` and no `included` or `gene_id` column. -/
theorem probe_set_filters_renames_witness :
    load_prove_set_df
        ["# comment", "gene_id,included,extra", "G1,True,x", "G2,False,y"] =
      some (probeSetSpecTable (splitSep ',' "gene_id,included,extra")
        (["G1,True,x", "G2,False,y"].map (fun r => splitSep ',' r)) 1) ∧
    probeSetSpecTable (splitSep ',' "gene_id,included,extra")
        (["G1,True,x", "G2,False,y"].map (fun r => splitSep ',' r)) 1 =
      ⟨["feature_id", "extra"], [["G1", "x"]]⟩ :=
  ⟨probe_set_filters_renames
      ["# comment", "gene_id,included,extra", "G1,True,x", "G2,False,y"]
      "gene_id,included,extra" ["G1,True,x", "G2,False,y"] 1
      (by decide) (by decide) (by decide),
    by decide⟩

/-! ### C7: comment lines are skipped wherever they are -/

lemma stripComment_of_hash (l : String) (hl : l.data.head? = some '#') :
    stripComment l = "" := by
  unfold stripComment
  cases hd : l.data with
  | nil => rw [hd] at hl; simp at hl
  | cons c cs =>
    rw [hd] at hl
    simp only [List.head?_cons, Option.some.injEq] at hl
    subst hl
    rfl

/-- C7: a line beginning with `#` — before, between or after the other
lines — is skipped entirely by `load_prove_set_df` and contributes no
row: removing it does not change the result. -/
theorem comment_lines_skipped (pre post : List String) (l : String)
    (hl : l.data.head? = some '#') :
    load_prove_set_df (pre ++ l :: post) = load_prove_set_df (pre ++ post) := by
  have hstrip := stripComment_of_hash l hl
  have hcsv : csvLines (pre ++ l :: post) = csvLines (pre ++ post) := by
    simp [csvLines, hstrip]
  unfold load_prove_set_df pdReadCsv
  rw [hcsv]

/-- Witness for C7: a `#` line inside the data region is skipped. -/
theorem comment_lines_skipped_witness :
    load_prove_set_df ["gene_id,included", "# deprecated block", "G1,True"] =
      load_prove_set_df ["gene_id,included", "G1,True"] :=
  comment_lines_skipped ["gene_id,included"] ["G1,True"] "# deprecated block"
    (by decide)

/-! ### C10: the probe-set filter preserves relative row order -/

/-- The output position at which input row `n` lands in the filtered
probe-set table: the number of retained rows among the first `n` input
rows (`k` is the position of the `included` column). -/
def retainedPos (rows : List (List String)) (k n : Nat) : Nat :=
  ((rows.take n).filter (fun r => pyBool (r.getD k ""))).length

lemma filter_decomp {α : Type} (p : α → Bool) (l : List α) (n : Nat)
    (hn : n < l.length) (hp : p l[n] = true) :
    l.filter p =
      (l.take n).filter p ++ l[n] :: (l.drop (n + 1)).filter p := by
  conv_lhs => rw [← List.take_append_drop n l]
  rw [List.filter_append, List.drop_eq_getElem_cons hn,
    List.filter_cons_of_pos hp]

lemma filter_retained_getD {α : Type} (p : α → Bool) (l : List α) (n : Nat)
    (d : α) (hn : n < l.length) (hp : p l[n] = true) :
    ((l.take n).filter p).length < (l.filter p).length ∧
    (l.filter p).getD (((l.take n).filter p).length) d = l[n] := by
  rw [filter_decomp p l n hn hp]
  constructor
  · rw [List.length_append, List.length_cons]; omega
  · rw [List.getD_append_right _ _ _ _ (le_refl _), Nat.sub_self]
    rfl

lemma filter_take_mono {α : Type} (p : α → Bool) (l : List α) (i j : Nat)
    (hij : i < j) (hi : i < l.length) (hp : p l[i] = true) :
    ((l.take i).filter p).length < ((l.take j).filter p).length := by
  have hdecomp : l.take j = l.take i ++ (l.drop i).take (j - i) := by
    conv_lhs => rw [show j = i + (j - i) from by omega]
    exact List.take_add l i (j - i)
  rw [hdecomp, List.filter_append, List.length_append]
  have hpos : 0 < (((l.drop i).take (j - i)).filter p).length := by
    rw [List.drop_eq_getElem_cons hi,
      show j - i = (j - i - 1) + 1 from by omega,
      List.take_succ_cons, List.filter_cons_of_pos hp]
    simp
  omega

lemma getD_map_of_lt {α β : Type} (f : α → β) (l : List α) (n : Nat)
    (d : β) (d' : α) (hn : n < l.length) :
    (l.map f).getD n d = f (l.getD n d') := by
  rw [List.getD_eq_getElem _ _ (by simpa using hn), List.getElem_map,
    List.getD_eq_getElem _ _ hn]

/-- C10: `load_prove_set_df` keeps the retained rows in their input
order: if input row `i` precedes input row `j` and both have `included`
true, the output row derived from `i` (at position `retainedPos … i`)
precedes the one derived from `j` (at position `retainedPos … j`). -/
theorem probe_set_order_preserved (content : List String) (hd : String)
    (rs : List String) (k i j : Nat) (t : PandasDF)
    (hcsv : csvLines content = hd :: rs)
    (hk : (splitSep ',' hd).findIdx? (fun c => c == "included") = some k)
    (hload : load_prove_set_df content = some t)
    (hij : i < j) (hj : j < rs.length)
    (hPi : pyBool (((rs.map (fun r => splitSep ',' r)).getD i []).getD k "")
      = true)
    (hPj : pyBool (((rs.map (fun r => splitSep ',' r)).getD j []).getD k "")
      = true) :
    retainedPos (rs.map (fun r => splitSep ',' r)) k i <
      retainedPos (rs.map (fun r => splitSep ',' r)) k j ∧
    retainedPos (rs.map (fun r => splitSep ',' r)) k j < t.rows.length ∧
    t.rows.getD (retainedPos (rs.map (fun r => splitSep ',' r)) k i) [] =
      ((rs.map (fun r => splitSep ',' r)).getD i []).eraseIdx k ∧
    t.rows.getD (retainedPos (rs.map (fun r => splitSep ',' r)) k j) [] =
      ((rs.map (fun r => splitSep ',' r)).getD j []).eraseIdx k := by
  have hteq : t = ⟨((splitSep ',' hd).map renameGeneId).eraseIdx k,
      ((rs.map (fun r => splitSep ',' r)).filter
          (fun r => pyBool (r.getD k ""))).map (fun r => r.eraseIdx k)⟩ := by
    have h2 := load_prove_set_eq content hd rs k hcsv hk
    rw [hload] at h2
    exact Option.some.inj h2
  subst hteq
  have hlen : (rs.map (fun r => splitSep ',' r)).length = rs.length :=
    List.length_map _ _
  have hi' : i < (rs.map (fun r => splitSep ',' r)).length := by omega
  have hj' : j < (rs.map (fun r => splitSep ',' r)).length := by omega
  have hPi2 : (fun r => pyBool (r.getD k ""))
      ((rs.map (fun r => splitSep ',' r))[i]) = true := by
    have h3 := hPi
    rw [List.getD_eq_getElem _ _ hi'] at h3
    simpa using h3
  have hPj2 : (fun r => pyBool (r.getD k ""))
      ((rs.map (fun r => splitSep ',' r))[j]) = true := by
    have h3 := hPj
    rw [List.getD_eq_getElem _ _ hj'] at h3
    simpa using h3
  obtain ⟨hbndi, hgeti⟩ := filter_retained_getD
    (fun r => pyBool (r.getD k "")) (rs.map (fun r => splitSep ',' r)) i []
    hi' hPi2
  obtain ⟨hbndj, hgetj⟩ := filter_retained_getD
    (fun r => pyBool (r.getD k "")) (rs.map (fun r => splitSep ',' r)) j []
    hj' hPj2
  have hmono := filter_take_mono (fun r => pyBool (r.getD k ""))
    (rs.map (fun r => splitSep ',' r)) i j hij hi' hPi2
  simp only [retainedPos]
  refine ⟨hmono, ?_, ?_, ?_⟩
  · simpa using hbndj
  · rw [getD_map_of_lt (fun r => r.eraseIdx k) _ _ [] [] hbndi, hgeti,
      List.getD_eq_getElem _ _ hi']
  · rw [getD_map_of_lt (fun r => r.eraseIdx k) _ _ [] [] hbndj, hgetj,
      List.getD_eq_getElem _ _ hj']

/-- Witness for C10: rows `A,True` (index 0) and `C,True` (index 2) with
`B,False` in between land at output positions 0 and 1, in order. -/
theorem probe_set_order_preserved_witness :
    retainedPos [["A", "True"], ["B", "False"], ["C", "True"]] 1 0 <
      retainedPos [["A", "True"], ["B", "False"], ["C", "True"]] 1 2 ∧
    retainedPos [["A", "True"], ["B", "False"], ["C", "True"]] 1 2 <
      (PandasDF.mk ["feature_id"] [["A"], ["C"]]).rows.length ∧
    (PandasDF.mk ["feature_id"] [["A"], ["C"]]).rows.getD
        (retainedPos [["A", "True"], ["B", "False"], ["C", "True"]] 1 0) [] =
      (([["A", "True"], ["B", "False"], ["C", "True"]] :
        List (List String)).getD 0 []).eraseIdx 1 ∧
    (PandasDF.mk ["feature_id"] [["A"], ["C"]]).rows.getD
        (retainedPos [["A", "True"], ["B", "False"], ["C", "True"]] 1 2) [] =
      (([["A", "True"], ["B", "False"], ["C", "True"]] :
        List (List String)).getD 2 []).eraseIdx 1 :=
  probe_set_order_preserved
    ["gene_id,included", "A,True", "B,False", "C,True"] "gene_id,included"
    ["A,True", "B,False", "C,True"] 1 0 2
    (PandasDF.mk ["feature_id"] [["A"], ["C"]])
    (by decide) (by decide) (by decide) (by decide) (by decide) (by decide)
    (by decide)
